import Mathlib

/- Formal model of the two Telegram bots in this repository:
   bot.py (the batch file-relay bot) and netlify/functions/bot.py (the
   media-lookup bot).  Python strings are modelled as Lean strings over
   their code points (ASCII behaviour; the inputs the bots compare are
   ASCII command words and identifiers).  CPython float formatting with
   two decimals is modelled by exact rational rounding half-to-even.
   Network sends and HTTP lookups are modelled as explicit oracles. -/

namespace TgBot

/-- Lowering of one character, as Python str.lower acts on ASCII. -/
def pyLowerChar (c : Char) : Char :=
  if 'A' ≤ c ∧ c ≤ 'Z' then Char.ofNat (c.toNat + 32) else c

/-- Python s.lower() on ASCII text. -/
def pyLower (s : String) : String :=
  String.mk (s.data.map pyLowerChar)

/-- Python whitespace recognised by str.strip. -/
def isPyWs (c : Char) : Bool :=
  c = ' ' || c = '\t' || c = '\n' || c = '\r' || c = '\x0b' || c = '\x0c'

/-- Python s.strip(): drop whitespace from both ends. -/
def pyStrip (s : String) : String :=
  String.mk (((s.data.dropWhile isPyWs).reverse.dropWhile isPyWs).reverse)

/-- Contiguous-sublist test on lists of characters. -/
def listContains (needle : List Char) : List Char → Bool
  | [] => List.isPrefixOf needle []
  | c :: rest => List.isPrefixOf needle (c :: rest) || listContains needle rest

/-- Python substring test: needle in hay. -/
def pyIn (needle hay : String) : Bool :=
  listContains needle.data hay.data

/-- Python s.startswith p. -/
def pyStartsWith (s p : String) : Bool :=
  List.isPrefixOf p.data s.data

/-- Python slice s[n:] (by code points). -/
def pyDrop (s : String) (n : Nat) : String :=
  String.mk (List.drop n s.data)

/-- Rendering of a natural number with the %02d format: zero-padded
to a minimum width of two digits. -/
def pad2 (n : Nat) : String :=
  if n < 10 then "0" ++ toString n else toString n

/-- Rounding of num/den to the nearest integer, ties to even: the
rounding CPython applies when printing a fraction with a fixed number
of decimals. -/
def roundHalfEven (num den : Nat) : Nat :=
  if 2 * (num % den) < den then num / den
  else if 2 * (num % den) > den then num / den + 1
  else if (num / den) % 2 = 0 then num / den else num / den + 1

/-- The two-decimal rendering of b/d produced by the f-string
"\x7bsize_bytes/...:.2f\x7d" in bot.py (format_file_size), modelled by
exact rational rounding half-to-even. -/
def fmt2 (b d : Nat) : String :=
  let h := roundHalfEven (100 * b) d
  toString (h / 100) ++ "." ++ pad2 (h % 100)

/-- bot.py lines 54-64, format_file_size: None yields "Unknown",
otherwise four unit bands with thresholds 1024, 1024^2, 1024^3. -/
def format_file_size : Option Nat → String
  | none => "Unknown"
  | some b =>
    if b < 1024 then toString b ++ " B"
    else if b < 1024 * 1024 then fmt2 b 1024 ++ " KB"
    else if b < 1024 * 1024 * 1024 then fmt2 b (1024 * 1024) ++ " MB"
    else fmt2 b (1024 * 1024 * 1024) ++ " GB"

/-- bot.py lines 66-77, format_duration, on a non-negative integer
number of seconds (the callers guard the input with isdigit, so the
int() conversion at the top of the Python function succeeds). -/
def format_duration (seconds : Nat) : String :=
  if seconds / 3600 > 0 then
    pad2 (seconds / 3600) ++ ":" ++ pad2 ((seconds % 3600) / 60) ++ ":" ++
      pad2 (seconds % 60)
  else pad2 ((seconds % 3600) / 60) ++ ":" ++ pad2 (seconds % 60)

/-- A string of the shape "i.ff": an integer part, a dot, and exactly
two decimal digits. -/
def twoDecimalShape (s : String) : Prop :=
  ∃ i : Nat, ∃ f : Nat, f < 100 ∧ s = toString i ++ "." ++ pad2 f

theorem pad2_length_two : ∀ n, n < 100 → (pad2 n).length = 2 := by decide

theorem fmt2_twoDecimalShape (b d : Nat) : twoDecimalShape (fmt2 b d) :=
  ⟨roundHalfEven (100 * b) d / 100, roundHalfEven (100 * b) d % 100,
    Nat.mod_lt _ (by omega), rfl⟩

/-- The rounded hundredths value is within half a hundredth of the
exact ratio: 2 * |h*d - 100*b| ≤ d for h = roundHalfEven (100*b) d. -/
theorem roundHalfEven_close (num den : Nat) (hden : 0 < den) :
    2 * (roundHalfEven num den) * den ≤ 2 * num + den ∧
    2 * num ≤ 2 * (roundHalfEven num den) * den + den := by
  have key : ∀ q r : Nat, r < den → num = den * q + r →
      (2 * r ≤ den → 2 * q * den ≤ 2 * num + den ∧ 2 * num ≤ 2 * q * den + den) ∧
      (den ≤ 2 * r → 2 * (q + 1) * den ≤ 2 * num + den ∧
        2 * num ≤ 2 * (q + 1) * den + den) := by
    intro q r hr hnum
    subst hnum
    constructor
    · intro h2
      constructor <;> nlinarith
    · intro h2
      constructor <;> nlinarith
  have hmod : num % den < den := Nat.mod_lt _ hden
  have hnum : num = den * (num / den) + num % den := (Nat.div_add_mod num den).symm
  have hk := key (num / den) (num % den) hmod hnum
  unfold roundHalfEven
  split
  · exact hk.1 (by omega)
  · split
    · exact hk.2 (by omega)
    · split
      · exact hk.1 (by omega)
      · exact hk.2 (by omega)

/-- C3: the file-size formatter maps a missing size to "Unknown", a byte
count below 1024 to "b B", and the three upper bands (thresholds 1024,
1024^2, 1024^3) to the two-decimal rendering of the value divided by the
band divisor, with units KB, MB and GB respectively. -/
theorem format_file_size_bands (b : Nat) :
    format_file_size none = "Unknown" ∧
    (b < 1024 → format_file_size (some b) = toString b ++ " B") ∧
    (1024 ≤ b → b < 1024 * 1024 →
      format_file_size (some b) = fmt2 b 1024 ++ " KB" ∧
      twoDecimalShape (fmt2 b 1024)) ∧
    (1024 * 1024 ≤ b → b < 1024 * 1024 * 1024 →
      format_file_size (some b) = fmt2 b (1024 * 1024) ++ " MB" ∧
      twoDecimalShape (fmt2 b (1024 * 1024))) ∧
    (1024 * 1024 * 1024 ≤ b →
      format_file_size (some b) = fmt2 b (1024 * 1024 * 1024) ++ " GB" ∧
      twoDecimalShape (fmt2 b (1024 * 1024 * 1024))) := by
  refine ⟨rfl, ?_, ?_, ?_, ?_⟩
  · intro h
    simp only [format_file_size]
    rw [if_pos h]
  · intro h1 h2
    simp only [format_file_size]
    rw [if_neg (by omega), if_pos h2]
    exact ⟨rfl, fmt2_twoDecimalShape b 1024⟩
  · intro h1 h2
    simp only [format_file_size]
    rw [if_neg (by omega), if_neg (by omega), if_pos h2]
    exact ⟨rfl, fmt2_twoDecimalShape b (1024 * 1024)⟩
  · intro h1
    simp only [format_file_size]
    rw [if_neg (by omega), if_neg (by omega), if_neg (by omega)]
    exact ⟨rfl, fmt2_twoDecimalShape b (1024 * 1024 * 1024)⟩

theorem format_file_size_bands_witness :
    (1024 ≤ 1536 ∧ 1536 < 1024 * 1024 ∧
      format_file_size (some 1536) = fmt2 1536 1024 ++ " KB") ∧
    fmt2 1536 1024 = "1.50" :=
  ⟨⟨by omega, by omega,
      ((format_file_size_bands 1536).2.2.1 (by omega) (by omega)).1⟩,
    by decide⟩

/-- C4: the duration formatter omits the hour field exactly when the
input is below 3600 seconds, always renders minutes and seconds as two
zero-padded digits, and for 3600 seconds and above produces
hour:minutes:seconds with the hour component present. -/
theorem format_duration_shape (s : Nat) :
    (pad2 ((s % 3600) / 60)).length = 2 ∧ (pad2 (s % 60)).length = 2 ∧
    (s < 3600 →
      format_duration s = pad2 ((s % 3600) / 60) ++ ":" ++ pad2 (s % 60)) ∧
    (3600 ≤ s →
      format_duration s =
        pad2 (s / 3600) ++ ":" ++ pad2 ((s % 3600) / 60) ++ ":" ++
          pad2 (s % 60)) := by
  refine ⟨pad2_length_two _ (by omega), pad2_length_two _ (by omega), ?_, ?_⟩
  · intro h
    simp only [format_duration]
    rw [if_neg (by omega)]
  · intro h
    simp only [format_duration]
    rw [if_pos (by omega)]

theorem format_duration_shape_witness :
    (3600 ≤ 3700 ∧
      format_duration 3700 =
        pad2 (3700 / 3600) ++ ":" ++ pad2 ((3700 % 3600) / 60) ++ ":" ++
          pad2 (3700 % 60)) ∧
    format_duration 3700 = "01:01:40" ∧ format_duration 70 = "01:10" :=
  ⟨⟨by omega, (format_duration_shape 3700).2.2.2 (by omega)⟩, by decide, by decide⟩

/-- A lookup result as consumed by select_best_match in
netlify/functions/bot.py: a JSON object whose "title" field may be
absent (item.get("title", "") supplies "" then). -/
structure MediaItem where
  title : Option String
deriving DecidableEq

/-- The loop condition of select_best_match: the lowered title equals
the lowered query, or contains it as a substring. -/
def bMatch (ql : String) (i : MediaItem) : Bool :=
  (pyLower (i.title.getD "") == ql) || pyIn ql (pyLower (i.title.getD ""))

/-- The for-loop of select_best_match: first item whose lowered title
equals or contains the lowered query. -/
def firstMatch (ql : String) : List MediaItem → Option MediaItem
  | [] => none
  | i :: rest => if bMatch ql i then some i else firstMatch ql rest

/-- netlify/functions/bot.py lines 53-63, select_best_match: the loop
over the results, then the fallback "results[0] if results else None". -/
def select_best_match (results : List MediaItem) (query : String) :
    Option MediaItem :=
  match firstMatch (pyLower query) results with
  | some i => some i
  | none => results.head?

/-- C1 counterexample: for query "b" against titles ["ab", "b"], an
exact case-insensitive title match ("b") exists in the list, yet the
selection returns the earlier item "ab", which matches only by
substring containment — exact equality does not win over containment. -/
theorem select_best_match_exact_loses_counterexample :
    select_best_match [MediaItem.mk (some "ab"), MediaItem.mk (some "b")] "b"
        = some (MediaItem.mk (some "ab")) ∧
    pyLower ((MediaItem.mk (some "b")).title.getD "") = pyLower "b" ∧
    pyLower ((MediaItem.mk (some "ab")).title.getD "") ≠ pyLower "b" := by
  refine ⟨rfl, rfl, ?_⟩
  decide

theorem firstMatch_eq_find (ql : String) (results : List MediaItem) :
    firstMatch ql results = results.find? (bMatch ql) := by
  induction results with
  | nil => rfl
  | cons i rest ih =>
    simp only [firstMatch, List.find?]
    by_cases h : bMatch ql i
    · rw [if_pos h, h]
    · rw [if_neg h, Bool.of_not_eq_true h, ih]

/-- C1 amended: for a non-empty candidate list, the selection returns
the first result in list order whose lowered title equals the lowered
query or contains it as a substring, and the head of the list when no
result matches either way; some result is always returned.  Exact
equality carries no priority over containment: position decides. -/
theorem select_best_match_first_hit (results : List MediaItem)
    (query : String) (h : results ≠ []) :
    (select_best_match results query =
      match results.find? (bMatch (pyLower query)) with
      | some i => some i
      | none => results.head?) ∧
    (select_best_match results query).isSome = true := by
  constructor
  · simp only [select_best_match, firstMatch_eq_find]
  · simp only [select_best_match, firstMatch_eq_find]
    match hf : results.find? (bMatch (pyLower query)) with
    | some i => rfl
    | none =>
      simp only [Option.isSome]
      match results, h with
      | r :: rest, _ => rfl

theorem select_best_match_first_hit_witness :
    ([MediaItem.mk (some "naruto")] ≠ ([] : List MediaItem)) ∧
    (select_best_match [MediaItem.mk (some "naruto")] "Naruto").isSome
      = true ∧
    select_best_match [MediaItem.mk (some "naruto")] "Naruto"
      = some (MediaItem.mk (some "naruto")) :=
  ⟨by decide,
    (select_best_match_first_hit [MediaItem.mk (some "naruto")] "Naruto"
      (by decide)).2,
    by decide⟩

/-- bot.py lines 324-330, in bs_select_target: the chat id of the sent
message (an integer in the platform API) rendered for the deep-link URL,
with a leading "-100" stripped. -/
def link_cid (cid : Int) : String :=
  if pyStartsWith (toString cid) "-100" then pyDrop (toString cid) 4
  else toString cid

/-- bot.py line 217, in toc_select_group: the group id string rendered
for the deep-link URL, with a leading "-100" stripped. -/
def toc_link_id (g : String) : String :=
  if pyStartsWith g "-100" then pyDrop g 4 else g

theorem strip_four_of_startsWith (s : String)
    (h : pyStartsWith s "-100" = true) : s = "-100" ++ pyDrop s 4 := by
  unfold pyStartsWith at h
  rw [List.isPrefixOf_iff_prefix] at h
  obtain ⟨t, ht⟩ := h
  have h4 : List.drop 4 s.data = t := by
    rw [← ht]
    have : ("-100" : String).data.length = 4 := rfl
    rw [← this]
    exact List.drop_left _ _
  apply String.ext
  rw [String.data_append]
  unfold pyDrop
  rw [h4, ht]

/-- C5: whenever the identifier used for a deep-link URL starts with
"-100" when rendered as a string, the link id is the identifier with
exactly those four leading characters removed (the original is the
reserved prefix followed by the link id); any other identifier is used
verbatim.  Both sites are covered: the integer chat id in
bs_select_target and the string group id in toc_select_group. -/
theorem deep_link_reserved_strip (cid : Int) (g : String) :
    (pyStartsWith (toString cid) "-100" = true →
      toString cid = "-100" ++ link_cid cid) ∧
    (pyStartsWith (toString cid) "-100" = false →
      link_cid cid = toString cid) ∧
    (pyStartsWith g "-100" = true → g = "-100" ++ toc_link_id g) ∧
    (pyStartsWith g "-100" = false → toc_link_id g = g) := by
  refine ⟨?_, ?_, ?_, ?_⟩
  · intro h
    unfold link_cid
    rw [if_pos h]
    exact strip_four_of_startsWith _ h
  · intro h
    unfold link_cid
    rw [if_neg (by simp [h])]
  · intro h
    unfold toc_link_id
    rw [if_pos h]
    exact strip_four_of_startsWith _ h
  · intro h
    unfold toc_link_id
    rw [if_neg (by simp [h])]

theorem deep_link_reserved_strip_witness :
    (pyStartsWith (toString (-1001234567 : Int)) "-100" = true ∧
      toString (-1001234567 : Int)
        = "-100" ++ link_cid (-1001234567 : Int)) ∧
    link_cid (-1001234567 : Int) = "1234567" ∧
    (pyStartsWith "42" "-100" = false ∧ toc_link_id "42" = "42") :=
  ⟨⟨by decide,
      (deep_link_reserved_strip (-1001234567) "42").1 (by decide)⟩,
    by decide,
    ⟨by decide, (deep_link_reserved_strip (-1001234567) "42").2.2.2 (by decide)⟩⟩

/-- Conversion of a digit run with Python underscore rules: a digit
extends the accumulator; an underscore is legal only when followed by a
digit (the caller guarantees a digit came before). -/
def digitsVal : List Char → Nat → Option Nat
  | [], acc => some acc
  | c :: rest, acc =>
    if c.isDigit then digitsVal rest (acc * 10 + (c.toNat - 48))
    else if c = '_' then
      match rest with
      | [] => none
      | c2 :: rest2 =>
        if c2.isDigit then digitsVal (c2 :: rest2) acc else none
    else none

/-- Python int(s) on a decimal string: strip whitespace, an optional
sign, then digits with optional single underscores between digits;
anything else raises (modelled as none). -/
def pyParseInt (s : String) : Option Int :=
  match (pyStrip s).data with
  | [] => none
  | c :: rest =>
    if c = '+' then
      match rest with
      | [] => none
      | c2 :: rest2 =>
        if c2.isDigit then (digitsVal (c2 :: rest2) 0).map (fun n => (n : Int))
        else none
    else if c = '-' then
      match rest with
      | [] => none
      | c2 :: rest2 =>
        if c2.isDigit then (digitsVal (c2 :: rest2) 0).map (fun n => -(n : Int))
        else none
    else if c.isDigit then (digitsVal (c :: rest) 0).map (fun n => (n : Int))
    else none

/-- The working result assembled by get_media_info in
netlify/functions/bot.py (the dictionary stored under
context.user_data, whose identity is what claim C6 tracks). -/
structure MediaInfo where
  media_type : String
  title : String
  synopsis : String
  genres : String
  date_info : String
  broadcast : String
  image_url : String
  characters : List (String × String)
deriving DecidableEq

/-- netlify/functions/bot.py lines 178-201, ask_season_handler, reduced
to its effect on the stored working result: the external two-tier
lookup (get_media_info) is an oracle.  "skip" or an unparsable reply
yields season None; season 0 is falsy in Python, so only a non-zero
parsed season triggers the refined lookup, and only a successful
refined lookup replaces the stored result. -/
def askSeasonInfo (lookup : String → Option MediaInfo) (query : String)
    (info : MediaInfo) (answerRaw : String) : MediaInfo :=
  match (if pyLower answerRaw = "skip" then none
         else pyParseInt (pyLower answerRaw)) with
  | none => info
  | some s =>
    if s = 0 then info
    else
      match lookup (query ++ " season " ++ toString s) with
      | some ninfo => ninfo
      | none => info

/-- C6: a "skip" reply or a non-numeric reply leaves the stored result
untouched; a numeric reply whose refined lookup fails also leaves it
untouched; a numeric non-zero reply whose refined lookup succeeds
installs the refined result; and the stored result changes only in that
last situation. -/
theorem season_keeps_original (lookup : String → Option MediaInfo)
    (query : String) (info : MediaInfo) (answerRaw : String) :
    ((pyLower answerRaw = "skip" ∨ pyParseInt (pyLower answerRaw) = none) →
      askSeasonInfo lookup query info answerRaw = info) ∧
    (∀ s : Int, pyParseInt (pyLower answerRaw) = some s → s ≠ 0 →
      pyLower answerRaw ≠ "skip" →
      lookup (query ++ " season " ++ toString s) = none →
      askSeasonInfo lookup query info answerRaw = info) ∧
    (∀ s : Int, ∀ ninfo : MediaInfo,
      pyParseInt (pyLower answerRaw) = some s → s ≠ 0 →
      pyLower answerRaw ≠ "skip" →
      lookup (query ++ " season " ++ toString s) = some ninfo →
      askSeasonInfo lookup query info answerRaw = ninfo) ∧
    (askSeasonInfo lookup query info answerRaw ≠ info →
      ∃ s : Int, ∃ ninfo : MediaInfo,
        pyLower answerRaw ≠ "skip" ∧
        pyParseInt (pyLower answerRaw) = some s ∧ s ≠ 0 ∧
        lookup (query ++ " season " ++ toString s) = some ninfo ∧
        askSeasonInfo lookup query info answerRaw = ninfo) := by
  refine ⟨?_, ?_, ?_, ?_⟩
  · rintro (h | h)
    · unfold askSeasonInfo
      rw [if_pos h]
    · by_cases hs : pyLower answerRaw = "skip"
      · unfold askSeasonInfo
        rw [if_pos hs]
      · unfold askSeasonInfo
        rw [if_neg hs, h]
  · intro s hp hs0 hsk hl
    unfold askSeasonInfo
    rw [if_neg hsk, hp]
    show (if s = 0 then info
      else match lookup (query ++ " season " ++ toString s) with
        | some ninfo => ninfo
        | none => info) = info
    rw [if_neg hs0, hl]
  · intro s ninfo hp hs0 hsk hl
    unfold askSeasonInfo
    rw [if_neg hsk, hp]
    show (if s = 0 then info
      else match lookup (query ++ " season " ++ toString s) with
        | some ninfo => ninfo
        | none => info) = ninfo
    rw [if_neg hs0, hl]
  · intro hne
    by_cases hsk : pyLower answerRaw = "skip"
    · exfalso
      apply hne
      unfold askSeasonInfo
      rw [if_pos hsk]
    · cases hp : pyParseInt (pyLower answerRaw) with
      | none =>
        exfalso
        apply hne
        unfold askSeasonInfo
        rw [if_neg hsk, hp]
      | some s =>
        by_cases hs0 : s = 0
        · exfalso
          apply hne
          unfold askSeasonInfo
          rw [if_neg hsk, hp]
          show (if s = 0 then info
            else match lookup (query ++ " season " ++ toString s) with
              | some ninfo => ninfo
              | none => info) = info
          rw [if_pos hs0]
        · cases hl : lookup (query ++ " season " ++ toString s) with
          | none =>
            exfalso
            apply hne
            unfold askSeasonInfo
            rw [if_neg hsk, hp]
            show (if s = 0 then info
              else match lookup (query ++ " season " ++ toString s) with
                | some ninfo => ninfo
                | none => info) = info
            rw [if_neg hs0, hl]
          | some ninfo =>
            refine ⟨s, ninfo, hsk, rfl, hs0, hl, ?_⟩
            unfold askSeasonInfo
            rw [if_neg hsk, hp]
            show (if s = 0 then info
              else match lookup (query ++ " season " ++ toString s) with
                | some ninfo => ninfo
                | none => info) = ninfo
            rw [if_neg hs0, hl]

theorem season_keeps_original_witness :
    pyLower "skip" = "skip" ∧
    askSeasonInfo (fun _ => none) "naruto"
        (MediaInfo.mk "Anime" "T" "S" "G" "D" "B" "I" []) "skip"
      = MediaInfo.mk "Anime" "T" "S" "G" "D" "B" "I" [] :=
  ⟨by decide,
    (season_keeps_original (fun _ => none) "naruto"
        (MediaInfo.mk "Anime" "T" "S" "G" "D" "B" "I" []) "skip").1
      (Or.inl (by decide))⟩

/-- The state /login in bot.py reads and writes: the stored credential
(load_password) and the per-user authenticated flag
(context.user_data). -/
structure LoginState where
  stored : String
  authenticated : Bool
deriving DecidableEq

/-- bot.py lines 127-136, login: args is context.args; the result is
the new state and the reply text. -/
def login (args : List String) (st : LoginState) : LoginState × String :=
  match args with
  | [] => (st, "Usage: /login <password>")
  | a :: _ =>
    if a = st.stored then
      ({ st with authenticated := true }, "Login successful!")
    else (st, "Incorrect password.")

/-- C7: a login attempt whose password argument differs from the stored
credential changes nothing (same stored credential, same authenticated
flag); the stored credential is never changed by login; and the
authenticated flag can only end up set if it already was, or the first
argument equals the stored credential. -/
theorem login_wrong_password_no_change (st : LoginState)
    (args : List String) :
    (∀ a rest, args = a :: rest → a ≠ st.stored →
      login args st = (st, "Incorrect password.")) ∧
    (login args st).1.stored = st.stored ∧
    ((login args st).1.authenticated = true →
      st.authenticated = true ∨ ∃ rest, args = st.stored :: rest) := by
  refine ⟨?_, ?_, ?_⟩
  · intro a rest h hne
    subst h
    simp only [login]
    rw [if_neg hne]
  · cases args with
    | nil => rfl
    | cons a rest =>
      simp only [login]
      by_cases h : a = st.stored
      · rw [if_pos h]
      · rw [if_neg h]
  · cases args with
    | nil =>
      intro h
      exact Or.inl h
    | cons a rest =>
      simp only [login]
      by_cases h : a = st.stored
      · rw [if_pos h]
        intro _
        exact Or.inr ⟨rest, by rw [h]⟩
      · rw [if_neg h]
        intro hh
        exact Or.inl hh

theorem login_wrong_password_no_change_witness :
    ("wrong" ≠ "admin") ∧
    login ["wrong"] (LoginState.mk "admin" false)
      = (LoginState.mk "admin" false, "Incorrect password.") :=
  ⟨by decide,
    (login_wrong_password_no_change (LoginState.mk "admin" false)
        ["wrong"]).1 "wrong" [] rfl (by decide)⟩

/-- A parsed JSON value, the shape of what json.load returns.  The
object constructor carries the key/value pairs with distinct keys, as
produced by the parser. -/
inductive J where
  | null
  | jb (b : Bool)
  | jn (n : Int)
  | js (s : String)
  | ja (xs : List J)
  | jo (kvs : List (String × J))

/-- Python dict .get on the parsed object's pairs. -/
def lookupKV : List (String × J) → String → Option J
  | [], _ => none
  | (k, v) :: rest, key => if k = key then some v else lookupKV rest key

/-- bot.py lines 31-36, load_groups.  The file read plus JSON parse is
the Option J argument: none is the except branch (missing, unreadable
or unparsable file); the function itself is total, so no error reaches
the caller. -/
def load_groups : Option J → J
  | none => J.jo []
  | some j => j

/-- bot.py lines 42-48, load_password.  As load_groups; a parsed value
that is not an object makes data.get raise inside the try block, so the
except branch also yields the default there. -/
def load_password : Option J → J
  | none => J.js "admin"
  | some (J.jo kvs) =>
    match lookupKV kvs "password" with
    | some v => v
    | none => J.js "admin"
  | some J.null => J.js "admin"
  | some (J.jb _) => J.js "admin"
  | some (J.jn _) => J.js "admin"
  | some (J.js _) => J.js "admin"
  | some (J.ja _) => J.js "admin"

/-- C8: a missing/unreadable/corrupt group-registry file loads as the
empty mapping; a missing/unreadable/corrupt password file, a password
file that is not a JSON object, or one lacking a "password" key, loads
as the default "admin".  Both loaders are total functions, so no error
is propagated. -/
theorem load_fallbacks (kvs : List (String × J)) (j : J)
    (hnokey : lookupKV kvs "password" = none)
    (hnotobj : ∀ kvs2, j ≠ J.jo kvs2) :
    load_groups none = J.jo [] ∧
    load_password none = J.js "admin" ∧
    load_password (some (J.jo kvs)) = J.js "admin" ∧
    load_password (some j) = J.js "admin" := by
  refine ⟨rfl, rfl, ?_, ?_⟩
  · simp only [load_password, hnokey]
  · cases j with
    | jo kvs2 => exact absurd rfl (hnotobj kvs2)
    | null => rfl
    | jb b => rfl
    | jn n => rfl
    | js s => rfl
    | ja xs => rfl

theorem load_fallbacks_witness :
    lookupKV [("pw", J.js "x")] "password" = none ∧
    load_password (some (J.jo [("pw", J.js "x")])) = J.js "admin" ∧
    load_password (some (J.ja [])) = J.js "admin" :=
  ⟨by simp [lookupKV],
    (load_fallbacks [("pw", J.js "x")] (J.ja []) (by simp [lookupKV])
        (fun kvs2 h => J.noConfusion h)).2.2.1,
    (load_fallbacks [("pw", J.js "x")] (J.ja []) (by simp [lookupKV])
        (fun kvs2 h => J.noConfusion h)).2.2.2⟩

/-- One entry of the in-memory per-chat message log in bot.py
(chat_logs): the message id and a snippet of its text. -/
structure LogEntry where
  message_id : Nat
  snippet : String
deriving DecidableEq

/-- bot.py lines 86-98, log_messages, reduced to its effect on one
chat's list: append the entry, then keep only the last 100 entries when
the length exceeds 100 (the Python slice [-100:]). -/
def logStep (log : List LogEntry) (e : LogEntry) : List LogEntry :=
  if 100 < (log ++ [e]).length then
    (log ++ [e]).drop ((log ++ [e]).length - 100)
  else log ++ [e]

theorem logStep_suffix (ms : List LogEntry) (e : LogEntry) :
    logStep (ms.drop (ms.length - 100)) e
      = (ms ++ [e]).drop ((ms ++ [e]).length - 100) := by
  by_cases h : ms.length < 100
  · have h0 : ms.length - 100 = 0 := by omega
    have h1 : (ms ++ [e]).length - 100 = 0 := by
      simp only [List.length_append, List.length_cons, List.length_nil]
      omega
    rw [h0, h1, List.drop_zero, List.drop_zero]
    unfold logStep
    rw [if_neg (by
      simp only [List.length_append, List.length_cons, List.length_nil]
      omega)]
  · have hd : (ms.drop (ms.length - 100)).length = 100 := by
      simp only [List.length_drop]
      omega
    have hlen1 : (ms.drop (ms.length - 100) ++ [e]).length = 101 := by
      simp only [List.length_append, hd, List.length_cons, List.length_nil]
    have hlen2 : (ms ++ [e]).length = ms.length + 1 := by
      simp only [List.length_append, List.length_cons, List.length_nil]
    unfold logStep
    rw [hlen1, hlen2, if_pos (by omega)]
    have h101 : (101 : Nat) - 100 = 1 := by omega
    rw [h101,
      List.drop_append_of_le_length
        (show 1 ≤ (ms.drop (ms.length - 100)).length by omega),
      List.drop_drop,
      List.drop_append_of_le_length
        (show ms.length + 1 - 100 ≤ ms.length by omega)]
    have harith : ms.length - 100 + 1 = ms.length + 1 - 100 := by omega
    rw [harith]

/-- C9: starting from the empty log, after any arrival sequence the
per-chat log is exactly the suffix of the 100 most recent entries in
arrival order (the whole sequence while it is at most 100 long), hence
never exceeds 100 entries; and appending to a log already holding 100
entries drops exactly the oldest entry. -/
theorem chat_log_bounded (msgs : List LogEntry) (log : List LogEntry)
    (e : LogEntry) (hlog : log.length = 100) :
    List.foldl logStep [] msgs = msgs.drop (msgs.length - 100) ∧
    (List.foldl logStep [] msgs).length ≤ 100 ∧
    logStep log e = log.drop 1 ++ [e] := by
  have main : List.foldl logStep [] msgs = msgs.drop (msgs.length - 100) := by
    induction msgs using List.reverseRecOn with
    | nil => rfl
    | append_singleton ms m ih =>
      rw [List.foldl_append, List.foldl_cons, List.foldl_nil, ih,
        logStep_suffix]
  refine ⟨main, ?_, ?_⟩
  · rw [main]
    simp only [List.length_drop]
    omega
  · have hlen : (log ++ [e]).length = 101 := by
      simp only [List.length_append, hlog, List.length_cons, List.length_nil]
    unfold logStep
    rw [hlen, if_pos (by omega)]
    have h101 : (101 : Nat) - 100 = 1 := by omega
    rw [h101,
      List.drop_append_of_le_length (show 1 ≤ log.length by omega)]

theorem chat_log_bounded_witness :
    (List.replicate 100 (LogEntry.mk 0 "")).length = 100 ∧
    List.foldl logStep [] [LogEntry.mk 1 "a", LogEntry.mk 2 "b"]
      = [LogEntry.mk 1 "a", LogEntry.mk 2 "b"] ∧
    logStep (List.replicate 100 (LogEntry.mk 0 "")) (LogEntry.mk 3 "c")
      = (List.replicate 100 (LogEntry.mk 0 "")).drop 1 ++ [LogEntry.mk 3 "c"] := by
  refine ⟨by simp, ?_, ?_⟩
  · have h := (chat_log_bounded [LogEntry.mk 1 "a", LogEntry.mk 2 "b"]
      (List.replicate 100 (LogEntry.mk 0 "")) (LogEntry.mk 3 "c")
      (by simp)).1
    simpa using h
  · exact (chat_log_bounded [LogEntry.mk 1 "a", LogEntry.mk 2 "b"]
      (List.replicate 100 (LogEntry.mk 0 "")) (LogEntry.mk 3 "c")
      (by simp)).2.2

/-- bot.py line 284, in bs_receive_prefix: the reply text stripped, or
"" when the message has no text. -/
def bsText (mtext : Option String) : String :=
  match mtext with
  | some t => pyStrip t
  | none => ""

/-- bot.py line 288, in bs_receive_prefix: the label stored for the
current file — the original file name when the stripped reply is "-" or
empty, the stripped reply otherwise. -/
def bsLabel (fileName : String) (mtext : Option String) : String :=
  if bsText mtext = "-" ∨ bsText mtext = "" then fileName
  else bsText mtext

/-- C10: a reply whose stripped text is empty is treated exactly like
the placeholder "-" (and like an absent text): the file's original name
becomes the label; any other non-empty stripped text becomes the label
verbatim. -/
theorem blank_label_like_dash (fileName t other : String)
    (hblank : pyStrip t = "") (h1 : pyStrip other ≠ "-")
    (h2 : pyStrip other ≠ "") :
    bsLabel fileName (some t) = fileName ∧
    bsLabel fileName (some "-") = fileName ∧
    bsLabel fileName none = fileName ∧
    bsLabel fileName (some other) = pyStrip other := by
  refine ⟨?_, ?_, ?_, ?_⟩
  · simp only [bsLabel, bsText]
    rw [hblank, if_pos (Or.inr rfl)]
  · simp only [bsLabel, bsText]
    rw [if_pos (Or.inl (show pyStrip "-" = "-" by decide))]
  · simp only [bsLabel, bsText]
    rw [if_pos (Or.inr trivial)]
  · simp only [bsLabel, bsText]
    rw [if_neg (not_or.mpr ⟨h1, h2⟩)]

theorem blank_label_like_dash_witness :
    pyStrip "  " = "" ∧ pyStrip " label " = "label" ∧
    bsLabel "doc.pdf" (some "  ") = "doc.pdf" ∧
    bsLabel "doc.pdf" (some " label ") = pyStrip " label " :=
  ⟨by decide, by decide,
    (blank_label_like_dash "doc.pdf" "  " " label " (by decide) (by decide)
        (by decide)).1,
    (blank_label_like_dash "doc.pdf" "  " " label " (by decide) (by decide)
        (by decide)).2.2.2⟩

/-- One collected file of the /batchsend session (bot.py
bs_collect_file): its display name and the label assigned during the
labeling phase (the dict's "prefix" key, None until assigned).  The
opaque platform file handle and the kind/duration metadata play no role
in the properties below. -/
structure BFile where
  fileName : String
  label : Option String
deriving DecidableEq

/-- A message the labeling phase sends back: the label prompt for the
n-th file (1-based, with that file's name), or the target-group
chooser. -/
inductive BMsg where
  | askLabel (n : Nat) (fileName : String)
  | chooseTarget
deriving DecidableEq

/-- Outcome of /done (bot.py lines 270-279, batch_done): cancel on an
empty collection, else enter the labeling phase at index 0 with the
prompt for file 1. -/
inductive BDone where
  | cancelled
  | toLabeling (idx : Nat) (m : BMsg)
deriving DecidableEq

def batchDone (files : List BFile) : BDone :=
  match files with
  | [] => BDone.cancelled
  | f :: _ => BDone.toLabeling 0 (BMsg.askLabel 1 f.fileName)

/-- The assignment current["prefix"] = ... of bs_receive_prefix: the
file at the index receives its label, every other entry is untouched. -/
def labelAt (mtext : Option String) (files : List BFile) (idx : Nat) :
    List BFile :=
  files.set idx
    (BFile.mk (files.getD idx (BFile.mk "" none)).fileName
      (some (bsLabel (files.getD idx (BFile.mk "" none)).fileName mtext)))

/-- bot.py lines 281-302, bs_receive_prefix: store the label for the
file at the current index, advance the index by one, and either prompt
for the next file (when files remain) or present the target chooser. -/
def bsReceiveLabel (mtext : Option String) (files : List BFile)
    (idx : Nat) : List BFile × Nat × BMsg :=
  if idx + 1 < (labelAt mtext files idx).length then
    (labelAt mtext files idx, idx + 1,
      BMsg.askLabel (idx + 2)
        ((labelAt mtext files idx).getD (idx + 1) (BFile.mk "" none)).fileName)
  else (labelAt mtext files idx, idx + 1, BMsg.chooseTarget)

/-- The labeling phase driven by a list of replies: final file list,
final index, and the messages emitted (one per reply). -/
def runLabeling : List (Option String) → List BFile → Nat →
    List BFile × Nat × List BMsg
  | [], files, idx => (files, idx, [])
  | r :: rs, files, idx =>
    ((runLabeling rs (bsReceiveLabel r files idx).1
        (bsReceiveLabel r files idx).2.1).1,
      (runLabeling rs (bsReceiveLabel r files idx).1
        (bsReceiveLabel r files idx).2.1).2.1,
      (bsReceiveLabel r files idx).2.2 ::
        (runLabeling rs (bsReceiveLabel r files idx).1
          (bsReceiveLabel r files idx).2.1).2.2)

/-- bot.py lines 341-343, in bs_select_target: the per-file line of the
final summary, success or error; the whole try-block delivery of one
file is the send oracle. -/
def bsOutcome (send : Nat → BFile → Except String Unit) (i : Nat)
    (f : BFile) : String :=
  match send i f with
  | Except.ok _ => "File " ++ toString i ++ " sent successfully."
  | Except.error e => "File " ++ toString i ++ " error: " ++ e

/-- bot.py lines 313-343, bs_select_target: the for-loop over
enumerate(files, start=1), collecting one outcome line per file; a
failed delivery contributes its error line and the loop continues. -/
def bsDispatch (send : Nat → BFile → Except String Unit) :
    Nat → List BFile → List String
  | _, [] => []
  | i, f :: fs => bsOutcome send i f :: bsDispatch send (i + 1) fs

/-- The expected message suffix once the labeling phase stands at a
given index: prompts for the remaining files, then the target chooser. -/
def msgTail (names : List String) (idx : Nat) : List BMsg :=
  ((List.range' (idx + 2) (names.length - (idx + 1))).map
    (fun i => BMsg.askLabel i (names.getD (i - 1) ""))) ++ [BMsg.chooseTarget]

theorem labelAt_length (mtext : Option String) (files : List BFile)
    (idx : Nat) : (labelAt mtext files idx).length = files.length := by
  unfold labelAt
  exact List.length_set ..

theorem set_keepName_map (files : List BFile) (idx : Nat)
    (lab : Option String) :
    (files.set idx
        (BFile.mk (files.getD idx (BFile.mk "" none)).fileName lab)).map
        BFile.fileName
      = files.map BFile.fileName := by
  induction files generalizing idx with
  | nil => rfl
  | cons f fs ih =>
    cases idx with
    | zero => simp [List.getD_cons_zero]
    | succ n =>
      simp only [List.getD_cons_succ, List.set_cons_succ, List.map_cons]
      rw [ih]

theorem labelAt_names (mtext : Option String) (files : List BFile)
    (idx : Nat) :
    (labelAt mtext files idx).map BFile.fileName
      = files.map BFile.fileName := by
  unfold labelAt
  exact set_keepName_map files idx _

theorem getD_map_fileName (l : List BFile) (i : Nat) :
    (l.getD i (BFile.mk "" none)).fileName
      = (l.map BFile.fileName).getD i "" := by
  induction l generalizing i with
  | nil => cases i <;> rfl
  | cons f fs ih =>
    cases i with
    | zero => rfl
    | succ n =>
      simp only [List.getD_cons_succ, List.map_cons]
      exact ih n

theorem bsReceiveLabel_files (mtext : Option String) (files : List BFile)
    (idx : Nat) :
    (bsReceiveLabel mtext files idx).1 = labelAt mtext files idx := by
  unfold bsReceiveLabel
  split <;> rfl

theorem bsReceiveLabel_idx (mtext : Option String) (files : List BFile)
    (idx : Nat) : (bsReceiveLabel mtext files idx).2.1 = idx + 1 := by
  unfold bsReceiveLabel
  split <;> rfl

theorem bsReceiveLabel_msg_mid (mtext : Option String)
    (files : List BFile) (idx : Nat) (h : idx + 1 < files.length) :
    (bsReceiveLabel mtext files idx).2.2
      = BMsg.askLabel (idx + 2)
          ((files.map BFile.fileName).getD (idx + 1) "") := by
  unfold bsReceiveLabel
  rw [if_pos (by rw [labelAt_length]; exact h)]
  rw [getD_map_fileName, labelAt_names]

theorem bsReceiveLabel_msg_last (mtext : Option String)
    (files : List BFile) (idx : Nat) (h : ¬ idx + 1 < files.length) :
    (bsReceiveLabel mtext files idx).2.2 = BMsg.chooseTarget := by
  unfold bsReceiveLabel
  rw [if_neg (by rw [labelAt_length]; exact h)]

theorem runLabeling_idx (rs : List (Option String)) (files : List BFile)
    (idx : Nat) : (runLabeling rs files idx).2.1 = idx + rs.length := by
  induction rs generalizing files idx with
  | nil => rfl
  | cons r rs ih =>
    simp only [runLabeling, List.length_cons]
    rw [ih, bsReceiveLabel_idx]
    omega

theorem runLabeling_names (rs : List (Option String))
    (files : List BFile) (idx : Nat) :
    (runLabeling rs files idx).1.map BFile.fileName
      = files.map BFile.fileName := by
  induction rs generalizing files idx with
  | nil => rfl
  | cons r rs ih =>
    simp only [runLabeling]
    rw [ih, bsReceiveLabel_files, labelAt_names]

theorem msgTail_cons (names : List String) (idx : Nat)
    (h : idx + 1 < names.length) :
    msgTail names idx
      = BMsg.askLabel (idx + 2) (names.getD (idx + 1) "") ::
          msgTail names (idx + 1) := by
  unfold msgTail
  have h1 : names.length - (idx + 1) = (names.length - (idx + 2)) + 1 := by
    omega
  rw [h1, List.range'_succ, List.map_cons]
  simp only [List.cons_append]
  have h2 : idx + 2 - 1 = idx + 1 := by omega
  rw [h2]

theorem runLabeling_msgs (rs : List (Option String)) (files : List BFile)
    (idx : Nat) (hlen : idx + rs.length = files.length)
    (hidx : idx < files.length) :
    (runLabeling rs files idx).2.2
      = msgTail (files.map BFile.fileName) idx := by
  induction rs generalizing files idx with
  | nil =>
    exfalso
    simp only [List.length_nil] at hlen
    omega
  | cons r rs ih =>
    simp only [runLabeling]
    rw [bsReceiveLabel_files, bsReceiveLabel_idx]
    by_cases h : idx + 1 < files.length
    · rw [bsReceiveLabel_msg_mid _ _ _ h,
        ih (labelAt r files idx) (idx + 1)
          (by rw [labelAt_length]; simp only [List.length_cons] at hlen; omega)
          (by rw [labelAt_length]; exact h),
        labelAt_names,
        msgTail_cons (files.map BFile.fileName) idx
          (by rw [List.length_map]; exact h)]
    · have hrs : rs = [] := by
        simp only [List.length_cons] at hlen
        have : rs.length = 0 := by omega
        exact List.length_eq_zero.mp this
      subst hrs
      rw [bsReceiveLabel_msg_last _ _ _ h]
      unfold msgTail
      have h0 : (files.map BFile.fileName).length - (idx + 1) = 0 := by
        rw [List.length_map]
        simp only [List.length_cons] at hlen
        omega
      rw [h0]
      rfl

theorem bsDispatch_length (send : Nat → BFile → Except String Unit) :
    ∀ (fs : List BFile) (i : Nat), (bsDispatch send i fs).length = fs.length := by
  intro fs
  induction fs with
  | nil => intro i; rfl
  | cons f fs ih =>
    intro i
    simp only [bsDispatch, List.length_cons, ih]

theorem bsDispatch_getD (send : Nat → BFile → Except String Unit) :
    ∀ (fs : List BFile) (i0 k : Nat), k < fs.length →
      (bsDispatch send i0 fs).getD k ""
        = bsOutcome send (i0 + k) (fs.getD k (BFile.mk "" none)) := by
  intro fs
  induction fs with
  | nil =>
    intro i0 k h
    exact absurd h (by simp)
  | cons f fs ih =>
    intro i0 k h
    cases k with
    | zero => rfl
    | succ n =>
      simp only [bsDispatch, List.getD_cons_succ]
      rw [ih (i0 + 1) n (by simp only [List.length_cons] at h; omega)]
      have : i0 + 1 + n = i0 + (n + 1) := by omega
      rw [this]

/-- C2: starting /done with N >= 1 collected files prompts for file 1;
the labeling phase then consumes exactly N replies, each advancing the
index by one (the final index is N), and the full message trace is the
N label prompts in collection order (file 1 .. file N, each naming the
file at that position) followed by the destination chooser; dispatching
the labeled list over any send oracle yields exactly N outcome lines,
the k-th line being the success or error line of the k-th file alone,
so one file's delivery failure leaves every other file's line in
place. -/
theorem batch_labels_and_outcomes (files : List BFile)
    (rs : List (Option String)) (send : Nat → BFile → Except String Unit)
    (hne : files ≠ []) (hlen : rs.length = files.length) :
    batchDone files
      = BDone.toLabeling 0
          (BMsg.askLabel 1 ((files.map BFile.fileName).getD 0 "")) ∧
    (runLabeling rs files 0).2.1 = files.length ∧
    (∀ k, (runLabeling (rs.take k) files 0).2.1 = min k files.length) ∧
    BMsg.askLabel 1 ((files.map BFile.fileName).getD 0 "") ::
        (runLabeling rs files 0).2.2
      = ((List.range' 1 files.length).map
          (fun i => BMsg.askLabel i ((files.map BFile.fileName).getD (i - 1) "")))
          ++ [BMsg.chooseTarget] ∧
    (bsDispatch send 1 (runLabeling rs files 0).1).length = files.length ∧
    (∀ k, k < files.length →
      (bsDispatch send 1 (runLabeling rs files 0).1).getD k ""
        = bsOutcome send (1 + k)
            ((runLabeling rs files 0).1.getD k (BFile.mk "" none))) := by
  have hpos : 0 < files.length := by
    cases files with
    | nil => exact absurd rfl hne
    | cons f fs => simp
  refine ⟨?_, ?_, ?_, ?_, ?_, ?_⟩
  · cases files with
    | nil => exact absurd rfl hne
    | cons f fs => rfl
  · rw [runLabeling_idx]
    omega
  · intro k
    rw [runLabeling_idx]
    simp only [List.length_take, hlen]
    omega
  · rw [runLabeling_msgs rs files 0 (by omega) hpos]
    unfold msgTail
    have hN : files.length = (files.length - 1) + 1 := by omega
    have hnames : (files.map BFile.fileName).length = files.length :=
      List.length_map ..
    rw [hnames]
    conv_rhs => rw [hN]
    rw [List.range'_succ, List.map_cons]
    simp only [List.cons_append]
  · rw [bsDispatch_length,
      show (runLabeling rs files 0).1.length = files.length by
        have := runLabeling_names rs files 0
        have h1 : ((runLabeling rs files 0).1.map BFile.fileName).length
            = (files.map BFile.fileName).length := by rw [this]
        simpa using h1]
  · intro k hk
    exact bsDispatch_getD send _ 1 k
      (by
        have := runLabeling_names rs files 0
        have h1 : ((runLabeling rs files 0).1.map BFile.fileName).length
            = (files.map BFile.fileName).length := by rw [this]
        simp only [List.length_map] at h1
        omega)

theorem batch_labels_and_outcomes_witness :
    ([BFile.mk "a.txt" none, BFile.mk "b.mp4" none] ≠ ([] : List BFile)) ∧
    ([some "x", some "-"] : List (Option String)).length
      = [BFile.mk "a.txt" none, BFile.mk "b.mp4" none].length ∧
    (bsDispatch
        (fun i _ => if i = 1 then Except.error "boom" else Except.ok ())
        1
        (runLabeling [some "x", some "-"]
          [BFile.mk "a.txt" none, BFile.mk "b.mp4" none] 0).1).length
      = [BFile.mk "a.txt" none, BFile.mk "b.mp4" none].length ∧
    (runLabeling [some "x", some "-"]
        [BFile.mk "a.txt" none, BFile.mk "b.mp4" none] 0).2.1
      = [BFile.mk "a.txt" none, BFile.mk "b.mp4" none].length :=
  ⟨by decide, rfl,
    (batch_labels_and_outcomes
        [BFile.mk "a.txt" none, BFile.mk "b.mp4" none]
        [some "x", some "-"]
        (fun i _ => if i = 1 then Except.error "boom" else Except.ok ())
        (by decide) rfl).2.2.2.2.1,
    (batch_labels_and_outcomes
        [BFile.mk "a.txt" none, BFile.mk "b.mp4" none]
        [some "x", some "-"]
        (fun i _ => if i = 1 then Except.error "boom" else Except.ok ())
        (by decide) rfl).2.1⟩

end TgBot
